import Mathlib

/-!
Verification of the chatgenius frontend (`chat-frontend/src`) against its
natural-language specification.  Each definition below is a shallow embedding
of a function or component of the TypeScript source; the theorems settle the
spec claims about them.
-/

set_option maxHeartbeats 1000000

namespace ChatGenius

/-! ## JavaScript value helpers

Small helpers reflecting JavaScript truthiness idioms used throughout the
source (`x || 0`, `x || []`, `!s` on strings). -/

/-- JS `n || 0` for an optional number (`undefined` and `0` are falsy). -/
def jsOrZero : Option Int → Int
  | none => 0
  | some v => if v = 0 then 0 else v

/-- JS `!s` for an optional string: `undefined` and the empty string are falsy. -/
def jsStrFalsy : Option String → Bool
  | none => true
  | some s => s = ""

/-! ## Data model (`chat-frontend/src/types/chat.ts`)

`Message` mirrors the `Message` interface: optional TS fields become
`Option`; `attachments` is declared non-optional in the interface but the
socket handler in `ChatLayout.tsx` defends against it being absent
(`message.attachments || []`), so it is modelled as optional. -/

structure UserRef where
  name : String
deriving DecidableEq, Inhabited

structure Message where
  id : String := ""
  content : String := ""
  userId : String := ""
  channelId : String := ""
  threadId : Option String := none
  createdAt : String := ""
  user : Option UserRef := none
  reactions : List (String × List String) := []
  attachments : Option (List String) := none
  replyCount : Option Int := none
deriving DecidableEq, Inhabited

/-- `Channel` mirrors the `Channel` interface plus the `unreadCount` and
`isMember` fields the `Sidebar` component reads off the wire. -/
structure Channel where
  id : String := ""
  name : String := ""
  type : String := "public"
  unreadCount : Option Int := none
  isMember : Bool := false
deriving DecidableEq, Inhabited

/-! ## `snakeToCamel` (`chat-frontend/src/services/api.ts`, lines 26–37)

JSON-like values; atoms (strings, numbers, booleans, null) are opaque since
`snakeToCamel` only ever dispatches on array-ness and enumerates keys. -/

inductive JVal where
  | atom (tag : String)
  | arr (elems : List JVal)
  | obj (fields : List (String × JVal))

instance : Inhabited JVal := ⟨.atom "null"⟩

/-- One left-to-right pass of `key.replace(/_([a-z])/g, g => g[1].toUpperCase())`:
each non-overlapping occurrence of `_` followed by an ASCII lowercase letter is
replaced by the letter uppercased. -/
def camelChars : List Char → List Char
  | [] => []
  | ['_'] => ['_']
  | '_' :: c :: rest =>
    if c.isLower then c.toUpper :: camelChars rest
    else '_' :: camelChars (c :: rest)
  | c :: rest => c :: camelChars rest

/-- The key renaming applied by `snakeToCamel` to each top-level key. -/
def camelKey (k : String) : String :=
  ⟨camelChars k.data⟩

mutual

/-- `snakeToCamel`: arrays are mapped element-wise recursively; any other value
is treated as an object whose enumerable keys are renamed, with the values
stored untouched (no recursion into values).  A non-array atom has no
enumerable keys, so the `for (const key in obj)` loop produces `{}`. -/
def snakeToCamel : JVal → JVal
  | .arr elems => .arr (snakeToCamelList elems)
  | .obj fields => .obj (fields.map fun kv => (camelKey kv.1, kv.2))
  | .atom _ => .obj []

def snakeToCamelList : List JVal → List JVal
  | [] => []
  | v :: vs => snakeToCamel v :: snakeToCamelList vs

end

/-! ## REST endpoint surface (`chat-frontend/src/services/api.ts`)

Every HTTP request template issued by the exported `api` object and by
`healthCheck`, as a method plus a path made of literal segments and
caller-supplied parameters. -/

inductive Seg where
  | lit (s : String)
  | param
deriving DecidableEq

structure Endpoint where
  opName : String
  method : String
  segs : List Seg
deriving DecidableEq

/-- All request templates of `api` (in source order) plus `healthCheck`. -/
def apiEndpoints : List Endpoint :=
  [ ⟨"auth.login", "POST", [.lit "auth", .lit "login"]⟩
  , ⟨"auth.register", "POST", [.lit "auth", .lit "register"]⟩
  , ⟨"auth.logout", "POST", [.lit "auth", .lit "logout"]⟩
  , ⟨"auth.loginAsPersona", "POST", [.lit "auth", .lit "login", .lit "persona"]⟩
  , ⟨"personas.list", "GET", [.lit "personas"]⟩
  , ⟨"channels.list", "GET", [.lit "channels"]⟩
  , ⟨"channels.available", "GET", [.lit "channels", .lit "available"]⟩
  , ⟨"channels.create", "POST", [.lit "channels"]⟩
  , ⟨"channels.join", "POST", [.lit "channels", .param, .lit "join"]⟩
  , ⟨"channels.leave", "POST", [.lit "channels", .param, .lit "leave"]⟩
  , ⟨"channels.markRead", "POST", [.lit "channels", .param, .lit "read"]⟩
  , ⟨"channels.listByWorkspace", "GET", [.lit "channels", .lit "workspace", .param]⟩
  , ⟨"messages.list", "GET", [.lit "channels", .param, .lit "messages"]⟩
  , ⟨"messages.create", "POST", [.lit "channels", .param, .lit "messages"]⟩
  , ⟨"messages.update", "PUT", [.lit "messages", .param]⟩
  , ⟨"messages.search", "GET", [.lit "search", .lit "messages"]⟩
  , ⟨"messages.getThreadMessages", "GET", [.lit "messages", .param, .lit "thread"]⟩
  , ⟨"messages.get", "GET", [.lit "messages", .param]⟩
  , ⟨"messages.createThreadReply", "POST", [.lit "messages", .param, .lit "thread"]⟩
  , ⟨"reactions.add", "POST", [.lit "messages", .param, .lit "reactions"]⟩
  , ⟨"reactions.remove", "DELETE", [.lit "messages", .param, .lit "reactions", .param]⟩
  , ⟨"users.list", "GET", [.lit "users"]⟩
  , ⟨"users.updateStatus", "PUT", [.lit "users", .lit "status"]⟩
  , ⟨"users.getOnline", "GET", [.lit "users", .lit "online"]⟩
  , ⟨"users.getCurrentUser", "GET", [.lit "users", .lit "me"]⟩
  , ⟨"workspaces.list", "GET", [.lit "workspaces"]⟩
  , ⟨"workspaces.listChannels", "GET", [.lit "channel", .lit "workspace", .param]⟩
  , ⟨"qa.askAboutChannel", "POST", [.lit "qa", .lit "channels", .param, .lit "ask"]⟩
  , ⟨"createBotChannel", "POST", [.lit "channels", .lit "bot"]⟩
  , ⟨"getBotChannel", "GET", [.lit "channels", .lit "bot"]⟩
  , ⟨"healthCheck", "GET", [.lit "health"]⟩ ]

/-- The path roots the spec names: `/auth`, `/channels`, `/messages`,
`/users`, `/search/messages`, `/workspaces`. -/
def underSpecRoots (e : Endpoint) : Bool :=
  match e.segs with
  | .lit "search" :: .lit "messages" :: _ => true
  | .lit r :: _ => r == "auth" || r == "channels" || r == "messages" || r == "users" || r == "workspaces"
  | _ => false

/-- The roots actually occurring in `api.ts`: the spec's six plus
`/personas`, `/channel` (the misspelt workspace-channel listing), `/qa`
and `/health`. -/
def underActualRoots (e : Endpoint) : Bool :=
  underSpecRoots e ||
    match e.segs with
    | .lit r :: _ => r == "personas" || r == "channel" || r == "qa" || r == "health"
    | _ => false

/-! ## Response-error interceptors (`chat-frontend/src/services/api.ts`, lines 287–315)

An axios failure carries an optional server response; the response body's
`error` field may be absent. -/

structure RespBody where
  error : Option String
deriving DecidableEq

structure Resp where
  status : Nat
  body : RespBody
deriving DecidableEq

structure AxiosFailure where
  response : Option Resp
deriving DecidableEq

/-- What the request ultimately rejects with. -/
inductive Rejection where
  | apiError (status : Nat) (message : Option String)
  | original (e : AxiosFailure)
deriving DecidableEq

/-- The first response interceptor's error branch: wrap in `ApiError` when a
response is present, otherwise rethrow the original error. -/
def globalErrorInterceptor (e : AxiosFailure) : Rejection :=
  match e.response with
  | some r => .apiError r.status r.body.error
  | none => .original e

/-- The second (logging) interceptor's error branch: log and re-reject the
same value unchanged. -/
def loggingInterceptor (r : Rejection) : Rejection := r

/-- The interceptor chain as seen by a caller of the api client. -/
def rejectionOf (e : AxiosFailure) : Rejection :=
  loggingInterceptor (globalErrorInterceptor e)

/-! ## `SocketService` (`chat-frontend/src/services/socket.ts`)

The service holds one optional `socket.io` client.  Listeners attached to the
socket are tracked per event name; a listener is either one of the fixed
handlers installed by `connect`, a caller callback attached directly
(`onNewMessage` / `onMessageUpdate` / `onNewChannel`), or the anonymous
wrapper that the generic `on` builds around a caller callback.  Callback
identities are modelled as numbers. -/

inductive Listener where
  | sys (tag : String)
  | raw (cb : Nat)
  | wrapped (cb : Nat)
deriving DecidableEq

structure Conn where
  connected : Bool
  listeners : List (String × Listener)
  anyHandlers : Nat
deriving DecidableEq

/-- The socket produced by `connect`: handlers for `connect`,
`connect_error` and `disconnect`, plus one `onAny` debug handler; the
connection is established asynchronously, so it starts unconnected. -/
def initConn : Conn :=
  { connected := false
    listeners := [("connect", .sys "log-connect"),
                  ("connect_error", .sys "log-connect-error"),
                  ("disconnect", .sys "log-disconnect")]
    anyHandlers := 1 }

def addListener (c : Conn) (e : String) (l : Listener) : Conn :=
  { c with listeners := c.listeners ++ [(e, l)] }

/-- `socket.off(event)` with no callback: drop every listener for the event. -/
def removeAllFor (c : Conn) (e : String) : Conn :=
  { c with listeners := c.listeners.filter fun p => p.1 ≠ e }

/-- `socket.off(event, cb)`: drop the listeners for the event whose attached
function is exactly `cb` (a wrapper built by `on` is a different function, so
it never matches a caller callback). -/
def removeCbFor (c : Conn) (e : String) (cb : Nat) : Conn :=
  { c with listeners := c.listeners.filter fun p => ¬(p.1 = e ∧ p.2 = .raw cb) }

/-- The public operations of `SocketService`, with their arguments. -/
inductive SockOp where
  | connect (hasToken : Bool)
  | disconnect
  | joinChannel (channelId : String)
  | leaveChannel (channelId : String)
  | onNewMessage (cb : Nat)
  | offNewMessage (cb : Nat)
  | onMessageUpdate (cb : Nat)
  | offMessageUpdate (cb : Nat)
  | onNewChannel (cb : Nat)
  | offNewChannel (cb : Nat)
  | onEvent (event : String) (cb : Nat)
  | off (event : String) (cb : Nat)
  | emit (event : String)
deriving DecidableEq

/-- One `SocketService` method call acting on the service's socket state. -/
def sockStep (s : Option Conn) : SockOp → Option Conn
  | .connect hasToken =>
    match s with
    | some c => if c.connected then some c else if hasToken then some initConn else some c
    | none => if hasToken then some initConn else none
  | .disconnect => match s with | some _ => none | none => none
  | .joinChannel _ => s
  | .leaveChannel _ => s
  | .onNewMessage cb => s.map fun c => addListener c "message.new" (.raw cb)
  | .offNewMessage cb => s.map fun c => removeCbFor c "message.new" cb
  | .onMessageUpdate cb => s.map fun c => addListener c "message.update" (.raw cb)
  | .offMessageUpdate cb => s.map fun c => removeCbFor c "message.update" cb
  | .onNewChannel cb => s.map fun c => addListener c "channel.new" (.raw cb)
  | .offNewChannel cb => s.map fun c => removeCbFor c "channel.new" cb
  | .onEvent event cb => s.map fun c => addListener (removeAllFor c event) event (.wrapped cb)
  | .off event cb => s.map fun c => removeCbFor c event cb
  | .emit _ => s

/-- A sequence of `SocketService` calls starting from the fresh service
(`socket = null`). -/
def sockRun (ops : List SockOp) : Option Conn :=
  ops.foldl sockStep none

/-- `true` exactly on wrapper listeners. -/
def Listener.isWrapped : Listener → Bool
  | .wrapped _ => true
  | _ => false

/-- How many listeners attached through the generic `on` (wrappers) a
connection holds for an event. -/
def wrappedCount (c : Conn) (e : String) : Nat :=
  c.listeners.countP fun p => p.1 == e && p.2.isWrapped

def wrappedCountOpt : Option Conn → String → Nat
  | none, _ => 0
  | some c, e => wrappedCount c e

/-- `true` exactly for the `connect` operation. -/
def isConnectOp : SockOp → Bool
  | .connect _ => true
  | _ => false

/-- The event names each operation mentions literally in `socket.ts`
(the generic `on`/`off`/`emit` forward a caller-supplied name instead). -/
def fixedEventNames : SockOp → List String
  | .connect _ => ["connect", "connect_error", "disconnect"]
  | .disconnect => []
  | .joinChannel _ => ["channel.join"]
  | .leaveChannel _ => ["channel.leave"]
  | .onNewMessage _ => ["message.new"]
  | .offNewMessage _ => ["message.new"]
  | .onMessageUpdate _ => ["message.update"]
  | .offMessageUpdate _ => ["message.update"]
  | .onNewChannel _ => ["channel.new"]
  | .offNewChannel _ => ["channel.new"]
  | .onEvent _ _ => []
  | .off _ _ => []
  | .emit _ => []

/-- The per-event wrapper bound: for every event name at most one listener
registered through the generic `on` is attached. -/
def sockInv (s : Option Conn) : Prop :=
  ∀ e, wrappedCountOpt s e ≤ 1

/-- The five event names the spec lists as the socket boundary contract. -/
def specEventNames : List String :=
  ["message.new", "message.update", "message.reaction", "channel.new", "user.status"]

/-- The event names `SocketService` actually hard-codes: the spec's message
and channel events plus the room-membership emits and the connection
lifecycle events. -/
def actualFixedEventNames : List String :=
  ["message.new", "message.update", "channel.new",
   "channel.join", "channel.leave", "connect", "connect_error", "disconnect"]

/-! ## Thread grouping

Two implementations ship in the repository.  `ThreadGroup` mirrors the
component-local interface; `MessageList.tsx` stores `message.threadId`
(possibly `undefined`) as the group key, `ThreadView.tsx`'s embedded
`MessageList` variant stores the parent's `id`. -/

structure ThreadGroup where
  threadId : Option String
  messages : List Message
deriving DecidableEq

/-- One step of the reduce in `MessageList.tsx` (lines 25–33): push the
message onto the first group whose key strictly equals its `threadId`,
else append a fresh group keyed by that `threadId`. -/
def mlInsert : List ThreadGroup → Message → List ThreadGroup
  | [], m => [⟨m.threadId, [m]⟩]
  | g :: gs, m =>
    if g.threadId = m.threadId then ⟨g.threadId, g.messages ++ [m]⟩ :: gs
    else g :: mlInsert gs m

/-- `threadGroups` of `MessageList.tsx` (lines 25–33). -/
def threadGroupsMessageList (messages : List Message) : List ThreadGroup :=
  messages.foldl mlInsert []

/-- The parent test of the `ThreadView.tsx` variant (line 310):
`!message.threadId || message.threadId === message.id` — a missing or empty
`threadId` is falsy. -/
def isParentJS (m : Message) : Bool :=
  jsStrFalsy m.threadId || m.threadId == some m.id

/-- Append a reply to the first group whose key equals its `threadId`; if no
group matches, the reply is dropped. -/
def tvAppend : List ThreadGroup → Message → List ThreadGroup
  | [], _ => []
  | g :: gs, m =>
    if g.threadId = m.threadId then ⟨g.threadId, g.messages ++ [m]⟩ :: gs
    else g :: tvAppend gs m

/-- One step of the reduce in the `MessageList` variant embedded in
`ThreadView.tsx` (lines 309–324): a parent starts a new group keyed by its
own `id`; a reply joins the group of its parent if one exists. -/
def tvInsert (gs : List ThreadGroup) (m : Message) : List ThreadGroup :=
  if isParentJS m then gs ++ [⟨some m.id, [m]⟩]
  else tvAppend gs m

/-- `threadGroups` of the variant in `ThreadView.tsx` (lines 309–324). -/
def threadGroupsThreadView (messages : List Message) : List ThreadGroup :=
  messages.foldl tvInsert []

/-- How often a message occurs across all groups. -/
def occurrences (gs : List ThreadGroup) (m : Message) : Nat :=
  (gs.map ThreadGroup.messages).flatten.count m

/-- The parent notion the claim uses: `threadId` absent or equal to the
message's own id. -/
def isParentSpec (m : Message) : Bool :=
  m.threadId == none || m.threadId == some m.id

/-- The partition property the claim asserts of a grouping function: every
message lands in exactly one group, and every group is one parent followed
by messages whose `threadId` is that parent's id. -/
def claimedPartition (tg : List Message → List ThreadGroup) : Prop :=
  ∀ msgs : List Message,
    (∀ m ∈ msgs, occurrences (tg msgs) m = 1) ∧
    (∀ g ∈ tg msgs, ∃ p t, g.messages = p :: t ∧ isParentSpec p = true ∧
      ∀ r ∈ t, r.threadId = some p.id)

/-- The invariant the `ThreadView.tsx` grouping maintains: every group is a
parent drawn from the processed messages, keyed by its id, followed by
replies carrying that id as `threadId`. -/
def tvGroupsOK (processed : List Message) (gs : List ThreadGroup) : Prop :=
  ∀ g ∈ gs, ∃ p t, g.messages = p :: t ∧ p ∈ processed ∧ isParentJS p = true ∧
    g.threadId = some p.id ∧ ∀ r ∈ t, r.threadId = some p.id

/-- A reply whose parent is absent from the list. -/
def orphanReply : Message :=
  { id := "r1", threadId := some "missing" }

/-- A top-level message without a `threadId`. -/
def parentA : Message :=
  { id := "a" }

/-- A second top-level message without a `threadId`. -/
def parentB : Message :=
  { id := "b" }

/-- A reply to `parentA`. -/
def replyA : Message :=
  { id := "r-a", threadId := some "a" }

/-! ## `ChatLayout` message handlers (`chat-frontend/src/components/Chat/ChatLayout.tsx`)

Each socket handler is a pure transformer of the `messages` state. -/

/-- JS truthiness test `message.threadId && message.threadId !== message.id`
used to recognise a thread reply. -/
def isThreadReplyJS (m : Message) : Bool :=
  !(jsStrFalsy m.threadId) && m.threadId != some m.id

/-- `handleNewMessage` (lines 207–228): only for the current channel; a
thread reply first bumps the parent's `replyCount`, then the message is
appended. -/
def handleNewMessage (currentChannel : String) (message : Message)
    (messages : List Message) : List Message :=
  if message.channelId = currentChannel then
    let bumped :=
      if isThreadReplyJS message then
        messages.map fun m =>
          if some m.id = message.threadId then
            { m with replyCount := some (jsOrZero m.replyCount + 1) }
          else m
      else messages
    bumped ++ [message]
  else messages

/-- The handler registered by the attachment-normalising effect (lines
298–309): append unconditionally, defaulting `attachments` to `[]`. -/
def handleNewMessageUnconditional (message : Message)
    (messages : List Message) : List Message :=
  messages ++ [{ message with attachments := some (message.attachments.getD []) }]

/-- The two `message.new` handlers `ChatLayout` registers, each as a
function of the currently selected channel. -/
def chatLayoutNewMessageHandlers :
    List (String → Message → List Message → List Message) :=
  [handleNewMessage, fun _ => handleNewMessageUnconditional]

/-- The property C8 claims: every `message.new` handler `ChatLayout`
registers leaves the `messages` state unchanged when the event's channel is
not the selected one. -/
def claimedChannelFiltering : Prop :=
  ∀ h ∈ chatLayoutNewMessageHandlers,
    ∀ currentChannel m msgs, m.channelId ≠ currentChannel →
      h currentChannel m msgs = msgs

/-- A concrete `message.new` event for a channel other than `general`. -/
def otherChannelMsg : Message :=
  { id := "m-other", channelId := "random", content := "hi" }

/-- `handleReaction` (lines 230–237): replace the matching message. -/
def handleReaction (currentChannel : String) (message : Message)
    (messages : List Message) : List Message :=
  if message.channelId = currentChannel then
    messages.map fun m => if m.id = message.id then message else m
  else messages

/-! ## `ThreadView` periodic fetch (`chat-frontend/src/components/Chat/ThreadView.tsx`, lines 19–38) -/

structure ThreadViewState where
  replies : List Message
  parentWithReactions : Message
deriving DecidableEq

/-- The body of `fetchMessages`, applied to the two fetched results: the
previous state is overwritten wholesale (replies filtered of the parent). -/
def tvFetchApply (parentId : String) (fetchedReplies : List Message)
    (fetchedParent : Message) (_prev : ThreadViewState) : ThreadViewState :=
  { replies := fetchedReplies.filter fun msg => msg.id ≠ parentId
    parentWithReactions := fetchedParent }

/-- What causes an effect to write state. -/
inductive Trigger where
  | socketEvent (name : String)
  | intervalMs (ms : Nat)
deriving DecidableEq

structure EffectW where
  component : String
  trigger : Trigger
deriving DecidableEq

/-- The `ChatLayout` effect that writes `messages` from the socket (lines
203–258). -/
def chatLayoutSocketEffect : EffectW :=
  ⟨"ChatLayout", .socketEvent "message.new"⟩

/-- The `ThreadView` effect that refetches on `setInterval(fetchMessages,
3000)` (lines 19–38). -/
def threadViewPollEffect : EffectW :=
  ⟨"ThreadView", .intervalMs 3000⟩

/-! ## `Sidebar` unread indicator (`chat-frontend/src/components/Layout/Sidebar.tsx`) -/

/-- `hasUnreadMessages` (lines 156–164): `(channel.unreadCount || 0) > 0`. -/
def hasUnreadMessages (channel : Channel) : Bool :=
  jsOrZero channel.unreadCount > 0

/-- The render condition of the unread dot in both the DM list (line 272)
and the joined-channels list (line 318):
`channel.id !== currentChannel && hasUnreadMessages(channel)`. -/
def showsUnreadIndicator (currentChannel : String) (channel : Channel) : Bool :=
  channel.id != currentChannel && hasUnreadMessages channel

/-! ## `MessageReactions` handlers (`chat-frontend/src/components/Chat/MessageReactions.tsx`, lines 24–41) -/

inductive ApiResult (α : Type) where
  | ok (value : α)
  | err (e : String)
deriving DecidableEq

structure ReactionsState where
  showPicker : Bool
  hoveredEmoji : Option String
deriving DecidableEq

/-- What a reaction handler did: resulting component state, whether the
`onReactionChange` callback ran, whether the error was logged, and whether
an exception escaped the handler. -/
structure ReactionOutcome where
  state : ReactionsState
  calledOnReactionChange : Bool
  loggedError : Bool
  escaped : Bool
deriving DecidableEq

/-- `handleAddReaction`: on success run the callback and close the picker;
on failure log and change nothing. -/
def handleAddReaction (apiAdd : ApiResult Unit) (s : ReactionsState) : ReactionOutcome :=
  match apiAdd with
  | .ok _ =>
    { state := { s with showPicker := false }
      calledOnReactionChange := true, loggedError := false, escaped := false }
  | .err _ =>
    { state := s, calledOnReactionChange := false, loggedError := true, escaped := false }

/-- `handleRemoveReaction`: on success run the callback; on failure log and
change nothing. -/
def handleRemoveReaction (apiRemove : ApiResult Unit) (s : ReactionsState) : ReactionOutcome :=
  match apiRemove with
  | .ok _ =>
    { state := s, calledOnReactionChange := true, loggedError := false, escaped := false }
  | .err _ =>
    { state := s, calledOnReactionChange := false, loggedError := true, escaped := false }

/-! ## Theorems -/

/-- Auxiliary: `snakeToCamelList` is exactly `List.map snakeToCamel`. -/
lemma snakeToCamelList_eq_map (l : List JVal) :
    snakeToCamelList l = l.map snakeToCamel := by
  induction l with
  | nil => rfl
  | cons v vs ih => simp [snakeToCamelList, ih]

/-- Auxiliary: `x || 0` is positive exactly when the value, defaulted to 0,
is positive. -/
lemma jsOrZero_pos (o : Option Int) : 0 < jsOrZero o ↔ 0 < o.getD 0 := by
  cases o with
  | none => simp [jsOrZero]
  | some v =>
    by_cases h : v = 0 <;> simp [jsOrZero, h]

/-- C4 — Error taxonomy: when a failed request carries a server response,
the interceptor chain rejects with an `ApiError` whose `status` is the
response's HTTP status and whose `message` is the body's `error` field;
without a response object the original error passes through unchanged. -/
theorem apiError_taxonomy (e : AxiosFailure) :
    (∀ r, e.response = some r → rejectionOf e = .apiError r.status r.body.error) ∧
    (e.response = none → rejectionOf e = .original e) := by
  constructor
  · intro r hr
    simp [rejectionOf, loggingInterceptor, globalErrorInterceptor, hr]
  · intro hr
    simp [rejectionOf, loggingInterceptor, globalErrorInterceptor, hr]

/-- Witness for C4 at a concrete 404 failure and a concrete response-less
failure. -/
theorem apiError_taxonomy_witness :
    rejectionOf ⟨some ⟨404, ⟨some "Channel not found"⟩⟩⟩ =
      .apiError 404 (some "Channel not found") ∧
    rejectionOf ⟨none⟩ = .original ⟨none⟩ :=
  ⟨(apiError_taxonomy _).1 _ rfl, (apiError_taxonomy _).2 rfl⟩

/-- C6 — Unread indicator: rendered iff the channel is not the selected one
and its `unreadCount`, taken as 0 when absent, is strictly positive. -/
theorem unread_indicator_iff (currentChannel : String) (channel : Channel) :
    showsUnreadIndicator currentChannel channel = true ↔
      (channel.id ≠ currentChannel ∧ 0 < channel.unreadCount.getD 0) := by
  simp [showsUnreadIndicator, hasUnreadMessages, decide_eq_true_eq, jsOrZero_pos]

/-- C7 — Reaction error atomicity: on an api error both handlers leave the
component state unchanged, do not call `onReactionChange`, log the error,
and let no exception escape. -/
theorem reaction_error_atomicity (s : ReactionsState) (e : String) :
    handleAddReaction (.err e) s =
      ⟨s, false, true, false⟩ ∧
    handleRemoveReaction (.err e) s =
      ⟨s, false, true, false⟩ :=
  ⟨rfl, rfl⟩

/-- C10 — Shallow key conversion: arrays map element-wise recursively;
objects rename only their top-level keys (`_` followed by a lowercase letter
becomes the uppercased letter) and keep every value unrenamed, so the keys
of an object nested directly inside an object are untouched. -/
theorem snakeToCamel_shallow :
    (∀ elems, snakeToCamel (.arr elems) = .arr (elems.map snakeToCamel)) ∧
    (∀ fields, snakeToCamel (.obj fields) =
        .obj (fields.map fun kv => (camelKey kv.1, kv.2))) ∧
    (∀ (c : Char) (s : List Char), c.isLower = true →
        camelChars ('_' :: c :: s) = c.toUpper :: camelChars s) ∧
    snakeToCamel (.obj [("thread_id", .obj [("user_name", .atom "x")])]) =
      .obj [("threadId", .obj [("user_name", .atom "x")])] := by
  refine ⟨?_, ?_, ?_, ?_⟩
  · intro elems
    simp [snakeToCamel, snakeToCamelList_eq_map]
  · intro fields
    rfl
  · intro c s h
    simp [camelChars, h]
  · rfl

/-- Witness for C10's key-rewriting conjunct at the concrete key
`_id` (lowercase `i` after the underscore). -/
theorem snakeToCamel_shallow_witness :
    camelChars ('_' :: 'i' :: 'd' :: []) = 'I' :: camelChars ['d'] :=
  snakeToCamel_shallow.2.2.1 'i' ['d'] (by decide)

/-- C5 — Dual writers: `ChatLayout` registers a socket-driven
`message.new` effect that appends to the message list, and `ThreadView`
registers a 3000 ms interval effect whose fetch overwrites its thread
message state independently of the previous value; the two effects are
distinct and fire from independent sources (a socket event versus a
timer), with nothing ordering one before the other. -/
theorem dual_message_writers :
    chatLayoutSocketEffect.trigger = .socketEvent "message.new" ∧
    threadViewPollEffect.trigger = .intervalMs 3000 ∧
    chatLayoutSocketEffect ≠ threadViewPollEffect ∧
    (∀ pid fetchedReplies fetchedParent s s',
        tvFetchApply pid fetchedReplies fetchedParent s =
          tvFetchApply pid fetchedReplies fetchedParent s') ∧
    (∀ currentChannel m msgs, m.channelId = currentChannel →
        (handleNewMessage currentChannel m msgs).length = msgs.length + 1) ∧
    (∀ pid fetchedReplies fetchedParent s m, m ∈ fetchedReplies → m.id ≠ pid →
        m ∈ (tvFetchApply pid fetchedReplies fetchedParent s).replies) := by
  refine ⟨rfl, rfl, by decide, ?_, ?_, ?_⟩
  · intro pid fr fp s s'
    rfl
  · intro current m msgs h
    by_cases ht : isThreadReplyJS m = true <;>
      simp [handleNewMessage, h, ht]
  · intro pid fr fp s m hm hid
    simp [tvFetchApply, List.mem_filter, hm, hid]

/-- Witness for C5 at concrete inputs: a message for the selected channel
grows the list, and a fetched reply distinct from the parent lands in the
overwritten replies. -/
theorem dual_message_writers_witness :
    (handleNewMessage "general" { id := "m1", channelId := "general" } []).length = 0 + 1 ∧
    ({ id := "r1", channelId := "general" } : Message) ∈
      (tvFetchApply "p1" [{ id := "r1", channelId := "general" }]
        { id := "p1" } ⟨[], { id := "p1" }⟩).replies :=
  ⟨dual_message_writers.2.2.2.2.1 "general" _ [] rfl,
   dual_message_writers.2.2.2.2.2 "p1" _ _ _ _ (by decide) (by decide)⟩

/-- C3 counterexample — the claim that every request path of `api` (plus
`healthCheck`) falls under `/auth`, `/channels`, `/messages`, `/users`,
`/search/messages` or `/workspaces` fails at `api.personas.list`, which
requests `/personas`. -/
theorem api_surface_counterexample :
    (⟨"personas.list", "GET", [.lit "personas"]⟩ : Endpoint) ∈ apiEndpoints ∧
    underSpecRoots ⟨"personas.list", "GET", [.lit "personas"]⟩ = false ∧
    ¬ (∀ e ∈ apiEndpoints, underSpecRoots e = true) := by
  refine ⟨by decide, by decide, fun h => ?_⟩
  have := h ⟨"personas.list", "GET", [.lit "personas"]⟩ (by decide)
  exact absurd this (by decide)

/-- C3 amended — every request path issued by the `api` object or
`healthCheck` falls under `/auth`, `/channels`, `/messages`, `/users`,
`/search/messages` or `/workspaces`, or under one of the four further roots
the client also uses: `/personas`, `/channel` (the misspelt
workspace-channel listing), `/qa` and `/health`. -/
theorem api_surface_amended :
    apiEndpoints.all underActualRoots = true := by decide

/-- C2 counterexample — the claim that every event name `SocketService`
subscribes to or emits is one of `message.new`, `message.update`,
`message.reaction`, `channel.new`, `user.status` fails at `joinChannel`,
which emits `channel.join`. -/
theorem socket_events_counterexample :
    "channel.join" ∈ fixedEventNames (.joinChannel "general") ∧
    "channel.join" ∉ specEventNames ∧
    ¬ (∀ op : SockOp, ∀ e ∈ fixedEventNames op, e ∈ specEventNames) := by
  refine ⟨by decide, by decide, fun h => ?_⟩
  have := h (.joinChannel "general") "channel.join" (by decide)
  exact absurd this (by decide)

/-- C2 amended — every event name `SocketService` hard-codes in a
subscription or emit is one of `message.new`, `message.update`,
`channel.new`, `channel.join`, `channel.leave`, `connect`, `connect_error`
or `disconnect`; the remaining spec events `message.reaction` and
`user.status` reach the socket only through the generic `on`/`off`/`emit`
methods, which forward the caller's event name. -/
theorem socket_events_amended (op : SockOp) :
    ∀ e ∈ fixedEventNames op, e ∈ actualFixedEventNames := by
  intro e he
  cases op <;> simp_all [fixedEventNames, actualFixedEventNames]

/-- Witness for C2's amended claim at the `joinChannel` operation. -/
theorem socket_events_amended_witness :
    "channel.join" ∈ actualFixedEventNames :=
  socket_events_amended (.joinChannel "general") "channel.join" (by decide)

/-- C8 counterexample — the handler registered by the attachment-normalising
effect appends `otherChannelMsg` to an empty list even though the selected
channel is `general`, so incoming messages are not filtered by channel. -/
theorem channel_filtering_counterexample :
    (fun _ : String => handleNewMessageUnconditional) ∈ chatLayoutNewMessageHandlers ∧
    otherChannelMsg.channelId ≠ "general" ∧
    handleNewMessageUnconditional otherChannelMsg [] ≠ [] ∧
    ¬ claimedChannelFiltering := by
  refine ⟨?_, by decide, by decide, fun h => ?_⟩
  · simp [chatLayoutNewMessageHandlers]
  · have := h (fun _ => handleNewMessageUnconditional)
      (by simp [chatLayoutNewMessageHandlers]) "general" otherChannelMsg [] (by decide)
    exact absurd this (by decide)

/-- C8 amended — `handleNewMessage` (registered through `onNewMessage`)
appends only events whose `channelId` equals the selected channel and leaves
the state unchanged otherwise; but the attachment-normalising effect
registers a second `message.new` handler that appends every event message
(with `attachments` defaulted to `[]`) regardless of channel, so an event
for another channel can still grow the `messages` state. -/
theorem channel_filtering_amended :
    (∀ currentChannel m msgs, m.channelId ≠ currentChannel →
        handleNewMessage currentChannel m msgs = msgs) ∧
    (∀ currentChannel m msgs, m.channelId = currentChannel →
        (handleNewMessage currentChannel m msgs).length = msgs.length + 1) ∧
    (∀ m msgs, handleNewMessageUnconditional m msgs =
        msgs ++ [{ m with attachments := some (m.attachments.getD []) }]) := by
  refine ⟨?_, ?_, ?_⟩
  · intro current m msgs h
    simp [handleNewMessage, h]
  · intro current m msgs h
    by_cases ht : isThreadReplyJS m = true <;>
      simp [handleNewMessage, h, ht]
  · intro m msgs
    rfl

/-- Witness for C8's amended claim: a `general` event appended, a `random`
event ignored by `handleNewMessage`, and the unconditional append. -/
theorem channel_filtering_amended_witness :
    handleNewMessage "general" otherChannelMsg [] = [] ∧
    (handleNewMessage "random" otherChannelMsg []).length = 0 + 1 ∧
    handleNewMessageUnconditional otherChannelMsg [] =
      [{ otherChannelMsg with attachments := some [] }] :=
  ⟨channel_filtering_amended.1 "general" otherChannelMsg [] (by decide),
   channel_filtering_amended.2.1 "random" otherChannelMsg [] rfl,
   channel_filtering_amended.2.2 otherChannelMsg []⟩

/-! ### Listener accounting for C9 -/

/-- Attaching a non-wrapper listener never changes the wrapper count. -/
lemma wrappedCount_addListener_raw (c : Conn) (e e' : String) (cb : Nat) :
    wrappedCount (addListener c e (.raw cb)) e' = wrappedCount c e' := by
  simp [wrappedCount, addListener, List.countP_append, List.countP_cons, Listener.isWrapped]

/-- Removing listeners (a `filter`) never raises the wrapper count. -/
lemma wrappedCount_filter_le (c : Conn) (q : String × Listener → Bool) (e : String) :
    wrappedCount { c with listeners := c.listeners.filter q } e ≤ wrappedCount c e :=
  List.Sublist.countP_le _ (List.filter_sublist _)

/-- `socket.off(event)` leaves no wrapper for that event. -/
lemma wrappedCount_removeAllFor_self (c : Conn) (e : String) :
    wrappedCount (removeAllFor c e) e = 0 := by
  simp only [wrappedCount, removeAllFor, List.countP_eq_zero]
  intro p hp
  have := List.of_mem_filter hp
  simp only [decide_eq_true_eq] at this
  simp [this]

/-- After the generic `on`, the event holds exactly one wrapper. -/
lemma wrappedCount_on_self (c : Conn) (e : String) (cb : Nat) :
    wrappedCount (addListener (removeAllFor c e) e (.wrapped cb)) e = 1 := by
  simp [wrappedCount, addListener, List.countP_append, List.countP_cons, Listener.isWrapped]
  have h := wrappedCount_removeAllFor_self c e
  simpa [wrappedCount] using h

/-- After the generic `on` for `e`, other events keep at most their old
wrapper count. -/
lemma wrappedCount_on_other (c : Conn) (e e' : String) (cb : Nat) (h : e' ≠ e) :
    wrappedCount (addListener (removeAllFor c e) e (.wrapped cb)) e'
      ≤ wrappedCount c e' := by
  have hne : (e == e') = false := by
    simpa [beq_iff_eq] using fun hh => h hh.symm
  calc wrappedCount (addListener (removeAllFor c e) e (.wrapped cb)) e'
      = wrappedCount (removeAllFor c e) e' := by
        simp [wrappedCount, addListener, List.countP_append, List.countP_cons, hne]
    _ ≤ wrappedCount c e' := wrappedCount_filter_le c _ e'

/-- A fresh socket from `connect` has no wrappers. -/
lemma wrappedCount_initConn (e : String) : wrappedCount initConn e = 0 := by
  simp [wrappedCount, initConn, List.countP_cons, Listener.isWrapped]

/-- Every `SocketService` method preserves the wrapper bound. -/
lemma sockStep_inv {s : Option Conn} (op : SockOp) (h : sockInv s) :
    sockInv (sockStep s op) := by
  intro e
  cases op with
  | connect hasToken =>
    cases s with
    | none =>
      by_cases ht : hasToken <;> simp [sockStep, ht, wrappedCountOpt, wrappedCount_initConn]
    | some c =>
      by_cases hc : c.connected
      · simpa [sockStep, hc, wrappedCountOpt] using h e
      · by_cases ht : hasToken
        · simp [sockStep, hc, ht, wrappedCountOpt, wrappedCount_initConn]
        · simpa [sockStep, hc, ht, wrappedCountOpt] using h e
  | disconnect => cases s <;> simp [sockStep, wrappedCountOpt]
  | joinChannel ch => simpa [sockStep] using h e
  | leaveChannel ch => simpa [sockStep] using h e
  | onNewMessage cb =>
    cases s with
    | none => simp [sockStep, wrappedCountOpt]
    | some c =>
      simpa [sockStep, wrappedCountOpt, wrappedCount_addListener_raw] using h e
  | offNewMessage cb =>
    cases s with
    | none => simp [sockStep, wrappedCountOpt]
    | some c =>
      exact le_trans (wrappedCount_filter_le c _ e) (by simpa [wrappedCountOpt] using h e)
  | onMessageUpdate cb =>
    cases s with
    | none => simp [sockStep, wrappedCountOpt]
    | some c =>
      simpa [sockStep, wrappedCountOpt, wrappedCount_addListener_raw] using h e
  | offMessageUpdate cb =>
    cases s with
    | none => simp [sockStep, wrappedCountOpt]
    | some c =>
      exact le_trans (wrappedCount_filter_le c _ e) (by simpa [wrappedCountOpt] using h e)
  | onNewChannel cb =>
    cases s with
    | none => simp [sockStep, wrappedCountOpt]
    | some c =>
      simpa [sockStep, wrappedCountOpt, wrappedCount_addListener_raw] using h e
  | offNewChannel cb =>
    cases s with
    | none => simp [sockStep, wrappedCountOpt]
    | some c =>
      exact le_trans (wrappedCount_filter_le c _ e) (by simpa [wrappedCountOpt] using h e)
  | onEvent event cb =>
    cases s with
    | none => simp [sockStep, wrappedCountOpt]
    | some c =>
      by_cases he : e = event
      · subst he
        simp [sockStep, wrappedCountOpt, wrappedCount_on_self]
      · exact le_trans
          (by simpa [sockStep, wrappedCountOpt] using wrappedCount_on_other c event e cb he)
          (by simpa [wrappedCountOpt] using h e)
  | off event cb =>
    cases s with
    | none => simp [sockStep, wrappedCountOpt]
    | some c =>
      exact le_trans (wrappedCount_filter_le c _ e) (by simpa [wrappedCountOpt] using h e)
  | emit event => simpa [sockStep] using h e

/-- The bound holds after any call sequence from the fresh service. -/
lemma sockRun_inv (ops : List SockOp) : sockInv (sockRun ops) := by
  have main : ∀ (l : List SockOp) (s : Option Conn), sockInv s →
      sockInv (List.foldl sockStep s l) := by
    intro l
    induction l with
    | nil => intro s hs; simpa using hs
    | cons op rest ih =>
      intro s hs
      exact ih _ (sockStep_inv op hs)
  exact main ops none (fun e => by simp [wrappedCountOpt])

/-- C9 — Listener replacement: after any sequence of `SocketService` calls
at most one listener registered through the generic `on` remains per event
name; a call to `on` leaves exactly its new wrapper attached to the event
(every previously attached listener for that event, including those from
`onNewMessage`/`onMessageUpdate`/`onNewChannel`, is removed first); and
every method other than `connect` is a no-op on a service with no socket. -/
theorem socket_listener_replacement :
    (∀ (ops : List SockOp) (e : String), wrappedCountOpt (sockRun ops) e ≤ 1) ∧
    (∀ (c : Conn) (event : String) (cb : Nat),
        sockStep (some c) (.onEvent event cb) =
          some (addListener (removeAllFor c event) event (.wrapped cb)) ∧
        ((addListener (removeAllFor c event) event (.wrapped cb)).listeners.filter
            fun p => p.1 == event) = [(event, .wrapped cb)]) ∧
    (∀ op : SockOp, isConnectOp op = false → sockStep none op = none) := by
  refine ⟨fun ops e => sockRun_inv ops e, fun c event cb => ⟨rfl, ?_⟩, fun op hop => ?_⟩
  · simp only [addListener, removeAllFor, List.filter_append]
    have h1 : (c.listeners.filter fun p => p.1 ≠ event).filter (fun p => p.1 == event) = [] := by
      rw [List.filter_eq_nil_iff]
      intro p hp
      have := List.of_mem_filter hp
      simp only [decide_eq_true_eq] at this
      simp [this]
    simp [h1]
  · cases op <;> simp_all [sockStep, isConnectOp]

/-- Witness for C9 at a concrete call sequence that registers through both
`on` and `onNewMessage`, and at a concrete socket-less call. -/
theorem socket_listener_replacement_witness :
    wrappedCountOpt
      (sockRun [.connect true, .onEvent "message.new" 1, .onNewMessage 2, .onEvent "message.new" 3])
      "message.new" ≤ 1 ∧
    sockStep none (.emit "message.new") = none :=
  ⟨socket_listener_replacement.1 _ "message.new",
   socket_listener_replacement.2.2 (.emit "message.new") (by decide)⟩

/-! ### Thread grouping lemmas for C1 -/

/-- One `MessageList.tsx` reduce step adds exactly the new message to the
multiset of grouped messages. -/
lemma mlInsert_flatten_perm (gs : List ThreadGroup) (m : Message) :
    ((mlInsert gs m).map ThreadGroup.messages).flatten.Perm
      ((gs.map ThreadGroup.messages).flatten ++ [m]) := by
  induction gs with
  | nil => simp [mlInsert]
  | cons g rest ih =>
    by_cases h : g.threadId = m.threadId
    · simp only [mlInsert, if_pos h, List.map_cons, List.flatten_cons]
      rw [List.append_assoc, List.append_assoc]
      exact List.Perm.append_left _ List.perm_append_comm
    · simp only [mlInsert, if_neg h, List.map_cons, List.flatten_cons]
      rw [List.append_assoc]
      exact List.Perm.append_left _ ih

/-- Folding the `MessageList.tsx` reduce accumulates exactly the folded
messages. -/
lemma foldl_mlInsert_perm :
    ∀ (msgs : List Message) (gs : List ThreadGroup),
      ((msgs.foldl mlInsert gs).map ThreadGroup.messages).flatten.Perm
        ((gs.map ThreadGroup.messages).flatten ++ msgs)
  | [], gs => by simp
  | m :: ms, gs => by
    have h1 := foldl_mlInsert_perm ms (mlInsert gs m)
    have h2 := (mlInsert_flatten_perm gs m).append_right ms
    have h3 := h1.trans h2
    simpa [List.append_assoc] using h3

/-- Monotonicity of the `ThreadView.tsx` group invariant in the set of
processed messages. -/
lemma tvGroupsOK_mono {proc proc' : List Message} {gs : List ThreadGroup}
    (hsub : ∀ x ∈ proc, x ∈ proc') (h : tvGroupsOK proc gs) :
    tvGroupsOK proc' gs := by
  intro g hg
  obtain ⟨p, t, h1, h2, h3, h4, h5⟩ := h g hg
  exact ⟨p, t, h1, hsub p h2, h3, h4, h5⟩

/-- Appending a reply to its parent's group preserves the invariant. -/
lemma tvAppend_OK (proc : List Message) (m : Message) :
    ∀ gs, tvGroupsOK proc gs → tvGroupsOK proc (tvAppend gs m)
  | [], h => by simpa [tvAppend] using h
  | g :: rest, h => by
    have hg0 := h g (List.mem_cons_self g rest)
    have hrest : tvGroupsOK proc rest := fun g' hg' => h g' (List.mem_cons_of_mem _ hg')
    by_cases hk : g.threadId = m.threadId
    · intro g' hg'
      simp only [tvAppend, if_pos hk] at hg'
      rcases List.mem_cons.mp hg' with hEq | hMem
      · subst hEq
        obtain ⟨p, t, h1, h2, h3, h4, h5⟩ := hg0
        refine ⟨p, t ++ [m], by simp [h1], h2, h3, h4, ?_⟩
        intro r hr
        rcases List.mem_append.mp hr with hr | hr
        · exact h5 r hr
        · have hrm : r = m := by simpa using hr
          subst hrm
          exact hk.symm.trans h4
      · exact hrest g' hMem
    · intro g' hg'
      simp only [tvAppend, if_neg hk] at hg'
      rcases List.mem_cons.mp hg' with hEq | hMem
      · subst hEq; exact hg0
      · exact tvAppend_OK proc m rest hrest g' hMem

/-- One `ThreadView.tsx` reduce step preserves the invariant, with the new
message counted as processed. -/
lemma tvInsert_OK (proc : List Message) (m : Message) (gs : List ThreadGroup)
    (h : tvGroupsOK proc gs) : tvGroupsOK (proc ++ [m]) (tvInsert gs m) := by
  have hmono : tvGroupsOK (proc ++ [m]) gs :=
    tvGroupsOK_mono (fun x hx => List.mem_append.mpr (Or.inl hx)) h
  by_cases hp : isParentJS m = true
  · intro g' hg'
    simp only [tvInsert, hp, if_true] at hg'
    rcases List.mem_append.mp hg' with hMem | hNew
    · exact hmono g' hMem
    · have : g' = ⟨some m.id, [m]⟩ := by simpa using hNew
      subst this
      exact ⟨m, [], rfl, List.mem_append.mpr (Or.inr (by simp)), hp, rfl, by simp⟩
  · have hf : isParentJS m = false := by simpa using hp
    simp only [tvInsert, hf, Bool.false_eq_true, if_false]
    exact tvAppend_OK _ _ _ hmono

/-- The invariant after folding the `ThreadView.tsx` reduce. -/
lemma foldl_tvInsert_OK :
    ∀ (msgs proc : List Message) (gs : List ThreadGroup),
      tvGroupsOK proc gs → tvGroupsOK (proc ++ msgs) (msgs.foldl tvInsert gs)
  | [], proc, gs, h => by simpa using h
  | m :: ms, proc, gs, h => by
    have h1 := tvInsert_OK proc m gs h
    have h2 := foldl_tvInsert_OK ms (proc ++ [m]) (tvInsert gs m) h1
    simpa [List.append_assoc] using h2

/-- `tvAppend` never changes the group keys. -/
lemma tvAppend_keys (m : Message) :
    ∀ gs : List ThreadGroup,
      (tvAppend gs m).map ThreadGroup.threadId = gs.map ThreadGroup.threadId
  | [] => rfl
  | g :: rest => by
    by_cases hk : g.threadId = m.threadId <;>
      simp [tvAppend, hk, tvAppend_keys m rest]

/-- The group keys produced by folding the `ThreadView.tsx` reduce: one key
per parent, in order. -/
lemma foldl_tvInsert_keys :
    ∀ (msgs : List Message) (gs : List ThreadGroup),
      (msgs.foldl tvInsert gs).map ThreadGroup.threadId =
        gs.map ThreadGroup.threadId ++ (msgs.filter isParentJS).map fun m => some m.id
  | [], gs => by simp
  | m :: ms, gs => by
    have hrec := foldl_tvInsert_keys ms (tvInsert gs m)
    rw [List.foldl_cons, hrec]
    by_cases hp : isParentJS m = true
    · simp [tvInsert, hp, List.filter_cons, List.append_assoc]
    · have hf : isParentJS m = false := by simpa using hp
      simp [tvInsert, hf, tvAppend_keys, List.filter_cons]

/-- C1 counterexample — the claimed partition fails for both shipped
`threadGroups` computations: the `ThreadView.tsx` variant drops a reply whose
parent is absent (it lands in no group at all), and the `MessageList.tsx`
variant merges two unrelated parent messages without a `threadId` into a
single group. -/
theorem thread_grouping_counterexample :
    threadGroupsThreadView [orphanReply] = [] ∧
    threadGroupsMessageList [parentA, parentB] = [⟨none, [parentA, parentB]⟩] ∧
    ¬ claimedPartition threadGroupsThreadView ∧
    ¬ claimedPartition threadGroupsMessageList := by
  refine ⟨by decide, by decide, fun h => ?_, fun h => ?_⟩
  · have h1 := (h [orphanReply]).1 orphanReply (by decide)
    exact absurd h1 (by decide)
  · obtain ⟨p, t, hpt, hp, hr⟩ :=
      (h [parentA, parentB]).2 ⟨none, [parentA, parentB]⟩ (by decide)
    have hpt' : [parentA, parentB] = p :: t := hpt
    injection hpt' with h1 h2
    subst h1
    subst h2
    have := hr parentB (by simp)
    exact absurd this (by decide)

/-- C1 amended — what the two computations actually guarantee:
the `MessageList.tsx` reduce groups messages by strict equality of their
`threadId` field, so every message lands in exactly one group (counting
multiplicity) but a group's first element need not be a parent and all
messages lacking a `threadId` share one group; the `ThreadView.tsx` variant
yields groups that each consist of one parent message (threadId absent,
empty, or equal to its own id) drawn from the list and keyed by its id,
followed only by messages whose `threadId` equals that parent's id, with
one group per parent in list order, while a non-parent message with no
matching parent in the list appears in no group at all. -/
theorem thread_grouping_amended :
    (∀ msgs : List Message,
        ((threadGroupsMessageList msgs).map ThreadGroup.messages).flatten.Perm msgs) ∧
    (∀ msgs : List Message, ∀ g ∈ threadGroupsThreadView msgs,
        ∃ p t, g.messages = p :: t ∧ p ∈ msgs ∧ isParentJS p = true ∧
          g.threadId = some p.id ∧ ∀ r ∈ t, r.threadId = some p.id) ∧
    (∀ msgs : List Message,
        (threadGroupsThreadView msgs).map ThreadGroup.threadId =
          (msgs.filter isParentJS).map fun m => some m.id) ∧
    (∀ msgs : List Message, ∀ m ∈ msgs, isParentJS m = false →
        (∀ p ∈ msgs, ¬(isParentJS p = true ∧ m.threadId = some p.id)) →
        occurrences (threadGroupsThreadView msgs) m = 0) := by
  have hOK : ∀ msgs : List Message, tvGroupsOK msgs (threadGroupsThreadView msgs) := by
    intro msgs
    have h0 : tvGroupsOK [] ([] : List ThreadGroup) := fun g hg => by simp at hg
    simpa [threadGroupsThreadView] using foldl_tvInsert_OK msgs [] [] h0
  refine ⟨?_, ?_, ?_, ?_⟩
  · intro msgs
    simpa [threadGroupsMessageList] using foldl_mlInsert_perm msgs []
  · intro msgs g hg
    exact hOK msgs g hg
  · intro msgs
    simpa [threadGroupsThreadView] using foldl_tvInsert_keys msgs []
  · intro msgs m hm hnp hnopar
    rw [occurrences, List.count_eq_zero]
    intro hmem
    rw [List.mem_flatten] at hmem
    obtain ⟨l, hl, hml⟩ := hmem
    rw [List.mem_map] at hl
    obtain ⟨g, hg, rfl⟩ := hl
    obtain ⟨p, t, hpt, hpmem, hppar, _, hrep⟩ := hOK msgs g hg
    rw [hpt] at hml
    rcases List.mem_cons.mp hml with hEq | hMem
    · subst hEq
      exact absurd hppar (by simp [hnp])
    · exact hnopar p hpmem ⟨hppar, hrep m hMem⟩

/-- Witness for C1's amended claim: a parent followed by its reply forms the
expected group, and the orphan reply lands in no group. -/
theorem thread_grouping_amended_witness :
    (∃ p t, (⟨some "a", [parentA, replyA]⟩ : ThreadGroup).messages = p :: t ∧
        p ∈ [parentA, replyA] ∧ isParentJS p = true ∧
        (⟨some "a", [parentA, replyA]⟩ : ThreadGroup).threadId = some p.id ∧
        ∀ r ∈ t, r.threadId = some p.id) ∧
    occurrences (threadGroupsThreadView [orphanReply]) orphanReply = 0 :=
  ⟨thread_grouping_amended.2.1 [parentA, replyA] ⟨some "a", [parentA, replyA]⟩ (by decide),
   thread_grouping_amended.2.2.2 [orphanReply] orphanReply (by decide) (by decide)
     (by decide)⟩

end ChatGenius
